import Mathlib

/-!
Verification development for the drews-movie-dashboard metadata cache and
enrichment pipeline.  The definitions below are a shallow embedding of the
TypeScript sources:

  * `formatImdbId`            from src/src/lib/imdb.ts
  * `normalizePerson`, `toPeopleArray`, `mergePeople`, `toSynopsisString`,
    `toRuntimeString`, `getImageUrl` and the cache-write portion of
    `fetchImdbDetails` from src/src/routes/VersionsPage.tsx
  * `rememberMovies` and the module level `movieCache`
    from the typed movieCache module (src/unnamed/part_005, lines 58-78)
  * `searchMovies` error construction from src/src/api.ts and
    `toErrorMessage` from the errors module (src/unnamed/part_004)

Loosely typed JavaScript values are modelled by the `JSVal` inductive.
A JS number is represented by whether it is finite together with the two
integer observations the embedded code makes of it: `Math.trunc` and
`Math.round`.  JS `null` and `undefined` are collapsed into `jnull`
(every embedded code path treats them identically: `== null`, `??`,
optional chaining and truthiness).
-/

namespace MovieDashboard

/-- Model of a loosely typed JavaScript value. -/
inductive JSVal where
  | jnull
  | jbool (b : Bool)
  | jnum (finite : Bool) (trunc round : Int)
  | jstr (s : String)
  | jarr (elems : List JSVal)
  | jobj (fields : List (String × JSVal))

/-- JS truthiness.  For numbers the model uses `finite && trunc ≠ 0`; this
differs from JS only on non-integer values in (-1,1) and on the infinities,
and no embedded function distinguishes those cases (each such call site
returns the same result for truthy and falsy non-string non-object values). -/
def truthy : JSVal → Bool
  | .jnull => false
  | .jbool b => b
  | .jnum finite trunc _ => finite && decide (trunc ≠ 0)
  | .jstr s => decide (s ≠ "")
  | .jarr _ => true
  | .jobj _ => true

/-- Model of JS `String.prototype.trim`: drop leading and trailing
whitespace.  (JS trims the full Unicode whitespace class; the model uses
`Char.isWhitespace`, which covers the ASCII whitespace characters.) -/
def jsTrim (s : String) : String :=
  String.mk (((s.toList.dropWhile Char.isWhitespace).reverse.dropWhile
    Char.isWhitespace).reverse)

/-- Property access `v?.k` / `v.k`: a field of an object, `undefined`
otherwise (modelled as `jnull`). -/
def jget (v : JSVal) (k : String) : JSVal :=
  match v with
  | .jobj fields =>
      match fields.find? (fun f => f.1 == k) with
      | some f => f.2
      | none => .jnull
  | _ => .jnull

/-- JS `a || b` for a string `a` (first operand if truthy, else second). -/
def orElseStr (a b : String) : String :=
  if a = "" then b else a

/-- JS `a ?? b` on an optional value. -/
def nullish {α : Type} (a b : Option α) : Option α :=
  match a with
  | some x => some x
  | none => b

/-- Bit length of a natural number, written with fuel-bounded structural
recursion so that the kernel can evaluate it; fuel 1100 covers every
finite double magnitude. -/
def bitLenAux : Nat → Nat → Nat
  | 0, _ => 0
  | fuel + 1, n => if n = 0 then 0 else bitLenAux fuel (n / 2) + 1

/-- Bit length of a natural number. -/
def bitLen (n : Nat) : Nat := bitLenAux 1100 n

/-- Round a natural number to the nearest integer representable as an IEEE
double (53-bit significand), round half to even: the conversion of an
exact integer to a JS number. -/
def roundToDouble (x : Nat) : Nat :=
  if x < 9007199254740992 then x
  else
    let e := bitLen x - 53
    let q := x / 2 ^ e
    let r := x % 2 ^ e
    let half := 2 ^ (e - 1)
    if half < r then (q + 1) * 2 ^ e
    else if r < half then q * 2 ^ e
    else if q % 2 = 0 then q * 2 ^ e else (q + 1) * 2 ^ e

/-- Distance between two natural numbers. -/
def natDist (a b : Nat) : Nat := if a ≤ b then b - a else a - b

/-- Of two valid digit candidates, prefer the one whose value is closer to
the target, ties to the even candidate, per ECMA-262 Number::toString. -/
def closerS (m p a b : Nat) : Nat :=
  let da := natDist (a * p) m
  let db := natDist (b * p) m
  if da < db then a
  else if db < da then b
  else if a % 2 = 0 then a else b

/-- The ECMA-262 choice of the digit integer s for a given digit count
(with p the power of ten scaling s): among the integers nearest m / p,
those whose value s * p converts back to the double m, closest first and
ties to even; `none` when no candidate converts back (a shorter digit
string cannot denote m). -/
def bestS (m p : Nat) : Option Nat :=
  let s0 := (2 * m + p) / (2 * p)
  let valid := ([s0, s0 + 1, s0 - 1].filter fun s =>
    decide (0 < s) && decide (roundToDouble (s * p) = m))
  match valid with
  | [] => none
  | s :: rest => some (rest.foldl (closerS m p) s)

/-- Format digits s with digit count k and decimal exponent n per
ECMA-262 Number::toString: plain decimal with n - k trailing zeros while
n stays at most 21, exponential notation ("d.ddde+N") above. -/
def formatSKN (s k n : Nat) : String :=
  if n ≤ 21 then Nat.repr s ++ String.mk (List.replicate (n - k) '0')
  else
    match (Nat.repr s).toList with
    | [] => "0"
    | d :: rest =>
        if k = 1 then String.mk [d] ++ "e+" ++ Nat.repr (n - 1)
        else String.mk [d] ++ "." ++ String.mk rest ++ "e+" ++ Nat.repr (n - 1)

/-- Model of `Number.prototype.toString` (base 10) on a nonnegative
integral double m, as produced by `Math.abs(Math.trunc(value))`.  Below
2^53 every integer is an exact double, the shortest ECMA-262
representation is the integer's own decimal digits, and the decimal
exponent never reaches 21, so the output is the plain decimal digits.
From 2^53 on, ECMA-262 Number::toString picks the fewest digits s whose
value converts back to the double (shortest round-trip, which may differ
from the exact digits), and switches to exponential notation once the
decimal exponent exceeds 21 — so 10^21 prints as "1e+21".  An integer not
realizable as a double cannot arise as the truncation of a JS number; for
those the digit search finds nothing and the exact digits are returned. -/
def jsNumToString (m : Nat) : String :=
  if m < 9007199254740992 then Nat.repr m
  else
    let L := (Nat.repr m).length
    match (List.range L).findSome? (fun i =>
      (bestS m (10 ^ (L - (i + 1)))).map (fun s => (i + 1, s))) with
    | none => Nat.repr m
    | some (k, s) =>
        if s = 10 ^ k then formatSKN 1 1 (L + 1)
        else formatSKN s k L

/-- Embeds `digits.padStart(7, '0')` from src/src/lib/imdb.ts. -/
def padStart7 (s : String) : String :=
  String.mk (List.replicate (7 - s.length) '0') ++ s

/-- Embeds `trimmed.replace(/[^0-9]/g, '')` from src/src/lib/imdb.ts. -/
def stripNonDigits (s : String) : String :=
  String.mk (s.toList.filter Char.isDigit)

/-- Source `formatImdbId` from src/src/lib/imdb.ts.  Returns `none` for JS `null`,
`some ""` for a blank string, `none` when no digits survive, otherwise
`some ("tt" ++ zero-padded digits)`.  The number branch embeds
`Math.abs(Math.trunc(value)).toString()` via `jsNumToString`, the ECMA
model of the double-to-string conversion (exponential notation from 1e21
on, shortest round-trip digits from 2^53 on, exact decimal digits
below). -/
def formatImdbId (value : JSVal) : Option String :=
  match value with
  | .jnull => none
  | .jnum finite trunc _ =>
      if finite then
        let digits := jsNumToString trunc.natAbs
        if digits = "" then none else some ("tt" ++ padStart7 digits)
      else none
  | .jstr s =>
      let trimmed := jsTrim s
      if trimmed = "" then some ""
      else
        let digits := stripNonDigits trimmed
        if digits = "" then none else some ("tt" ++ padStart7 digits)
  | _ => none

/-- Left-pad with zeros to a minimum width (spec 4.1 wording). -/
def leftPadZeros (width : Nat) (s : String) : String :=
  String.mk (List.replicate (width - s.length) '0') ++ s

/-- Modelled from the spec: the `normalizeExternalId` contract of spec
section 4.1, written from the spec's words, to be compared with the source
definition `formatImdbId`.  null/undefined yield null; a finite number
yields the decimal digits of its truncated absolute value; a string is
trimmed (blank yields the empty string) and stripped to its digits (none
left yields null); the digit string is left-padded with zeros to width 7
and prefixed with the two-letter tag; every other input yields null. -/
def normalizeExternalIdSpec (raw : JSVal) : Option String :=
  match raw with
  | .jnull => none
  | .jnum finite trunc _ =>
      if finite then
        let digitString := Nat.repr trunc.natAbs
        if digitString = "" then none
        else some ("tt" ++ leftPadZeros 7 digitString)
      else none
  | .jstr s =>
      let trimmed := jsTrim s
      if trimmed = "" then some ""
      else
        let digitString := stripNonDigits trimmed
        if digitString = "" then none
        else some ("tt" ++ leftPadZeros 7 digitString)
  | _ => none

/-- A non-null result of the normalizer is either empty or at least 9
characters long. -/
def resultLenOk : Option String → Bool
  | none => true
  | some s => decide (s = "") || decide (9 ≤ s.length)

/-- The input is not a finite number whose truncated absolute value
leaves the safe-integer range: below 2^53 the JS number-to-string
conversion provably yields the exact decimal digits of the integer. -/
def numSafe : JSVal → Bool
  | .jnum _ t _ => decide (t.natAbs < 9007199254740992)
  | _ => true

/-- A normalized person from `VersionsPage.tsx`: `normalizePerson` always
produces a record with `id`, `name` and `image` all set to strings
(`image` may be `""`). -/
structure Person where
  id : String
  name : String
  image : String
deriving DecidableEq

/-- Source `isNonEmptyString` from `VersionsPage.tsx`: a string whose trim is
non-empty. -/
def isNonEmptyString (v : JSVal) : Bool :=
  match v with
  | .jstr s => decide (jsTrim s ≠ "")
  | _ => false

/-- Embeds `candidates.filter(isNonEmptyString).map(trim).find(Boolean)` with the
sentinel `""` for "no candidate found". -/
def firstNonEmptyTrimmed : List JSVal → String
  | [] => ""
  | v :: rest =>
      match v with
      | .jstr s => if jsTrim s = "" then firstNonEmptyTrimmed rest else jsTrim s
      | _ => firstNonEmptyTrimmed rest

/-- Embeds `candidates.find(isNonEmptyString)` keeping the found string untrimmed,
with the sentinel `""` for "no candidate found" (a found candidate always
has a non-blank trim, hence is never `""` itself). -/
def firstNonEmptyUntrimmed : List JSVal → String
  | [] => ""
  | v :: rest =>
      match v with
      | .jstr s => if jsTrim s = "" then firstNonEmptyUntrimmed rest else s
      | _ => firstNonEmptyUntrimmed rest

/-- Source `getImageUrl` from `VersionsPage.tsx`.  In JS an array reaches the
`typeof source === 'object'` branch, where all seven field reads give
`undefined`; `jget` on `jarr` returns `jnull`, so routing `jarr` through
the same candidate list is behaviour-identical. -/
def getImageUrl (source : JSVal) : String :=
  if truthy source = false then ""
  else
    match source with
    | .jstr s => jsTrim s
    | .jobj _ =>
        firstNonEmptyTrimmed [jget source "url", jget source "src",
          jget source "href", jget source "imageUrl", jget source "value",
          jget source "link", jget source "path"]
    | .jarr _ =>
        firstNonEmptyTrimmed [jget source "url", jget source "src",
          jget source "href", jget source "imageUrl", jget source "value",
          jget source "link", jget source "path"]
    | _ => ""

/-- Source `normalizePerson` from `VersionsPage.tsx`.  In JS an array entry falls
into the `typeof entry === 'object'` branch where every named field read
yields `undefined`, so no name candidate resolves and the entry is
dropped; `jget` on `jarr` returns `jnull`, giving the same result here. -/
def normalizePerson (entry : JSVal) : Option Person :=
  if truthy entry = false then none
  else
    match entry with
    | .jstr s =>
        let text := jsTrim s
        if text = "" then none else some ⟨text, text, ""⟩
    | .jobj _ =>
        let nameCandidate := firstNonEmptyTrimmed [jget entry "name",
          jget entry "title", jget entry "fullName", jget entry "originalName",
          jget entry "displayName", jget entry "role", jget entry "character"]
        if nameCandidate = "" then none
        else
          let idFound := firstNonEmptyUntrimmed [jget entry "id",
            jget entry "imdbId", jget entry "imdb_id", jget entry "nconst",
            jget entry "personId", jget entry "const"]
          let idCandidate := if idFound = "" then nameCandidate else idFound
          let imageCandidate :=
            orElseStr (getImageUrl (jget entry "image"))
              (orElseStr (getImageUrl (jget entry "photo"))
                (orElseStr (getImageUrl (jget entry "thumbnail"))
                  (orElseStr (getImageUrl (jget entry "avatar"))
                    (orElseStr (getImageUrl (jget entry "headshot"))
                      (orElseStr (getImageUrl (jget entry "primaryImage"))
                        (orElseStr (getImageUrl (jget entry "profileImage"))
                          (getImageUrl (jget entry "poster"))))))))
          some ⟨idCandidate, nameCandidate, imageCandidate⟩
    | .jarr _ =>
        let nameCandidate := firstNonEmptyTrimmed [jget entry "name",
          jget entry "title", jget entry "fullName", jget entry "originalName",
          jget entry "displayName", jget entry "role", jget entry "character"]
        if nameCandidate = "" then none
        else
          let idFound := firstNonEmptyUntrimmed [jget entry "id",
            jget entry "imdbId", jget entry "imdb_id", jget entry "nconst",
            jget entry "personId", jget entry "const"]
          let idCandidate := if idFound = "" then nameCandidate else idFound
          some ⟨idCandidate, nameCandidate, ""⟩
    | _ => none

/-- Embeds `value.map(normalizePerson).filter(Boolean)` — the array branch of
`toPeopleArray`. -/
def peopleOfArray (xs : List JSVal) : List Person :=
  xs.filterMap normalizePerson

/-- The JS word-character class `[A-Za-z0-9_]` used by the regex `\b`
boundary. -/
def isWordChar (c : Char) : Bool :=
  (c.isAlpha && c.toNat < 128) || c.isDigit || c == '_'

/-- Does `\band\b` match (case-insensitively) at a position whose previous
input character is `prev`, current character `c`, next two characters
`n`, `d`, and remaining input `rest2`? -/
def andMatch (prev : Option Char) (c n d : Char) (rest2 : List Char) : Bool :=
  (c.toLower == 'a') && (n.toLower == 'n') && (d.toLower == 'd') &&
  (match prev with
   | some p => !isWordChar p
   | none => true) &&
  (match rest2 with
   | x :: _ => !isWordChar x
   | [] => true)

/-- Does `\band\b` match at the position of character `c` with remaining
input `rest`? -/
def andHere (prev : Option Char) (c : Char) (rest : List Char) : Bool :=
  match rest with
  | n :: d :: rest2 => andMatch prev c n d rest2
  | _ => false

/-- Scanner for `value.split(/,|&|\band\b/gi)`: `prev` is the previously
consumed input character (for the left word boundary), `cur` the current
piece accumulated in reverse, and `skip` the number of upcoming characters
that belong to an already matched `and` delimiter. -/
def splitDelimitersAux : Nat → Option Char → List Char → List Char → List String
  | _, _, cur, [] => [String.mk cur.reverse]
  | Nat.succ k, _, cur, c :: rest => splitDelimitersAux k (some c) cur rest
  | 0, prev, cur, c :: rest =>
      if c == ',' || c == '&' then
        String.mk cur.reverse :: splitDelimitersAux 0 (some c) [] rest
      else if andHere prev c rest then
        String.mk cur.reverse :: splitDelimitersAux 2 (some c) [] rest
      else
        splitDelimitersAux 0 (some c) (c :: cur) rest

/-- Embeds `value.split(/,|&|\band\b/gi)` from the string branch of
`toPeopleArray`. -/
def splitDelimiters (s : String) : List String :=
  splitDelimitersAux 0 none [] s.toList

/-- The first array among `[record.items, record.list, record.values,
record.results, record.people]`, the nested collection candidates of
`toPeopleArray`. -/
def firstArray : List JSVal → Option (List JSVal)
  | [] => none
  | (JSVal.jarr xs) :: _ => some xs
  | _ :: rest => firstArray rest

/-- The nested-collection lookup of `toPeopleArray`'s object branch. -/
def nestedPeopleSource (value : JSVal) : Option (List JSVal) :=
  firstArray [jget value "items", jget value "list", jget value "values",
    jget value "results", jget value "people"]

/-- Source `toPeopleArray` from `VersionsPage.tsx`.  The source's recursive call
`toPeopleArray(source)` on a nested array always lands in the array branch
(arrays are truthy), so it is inlined as `peopleOfArray`. -/
def toPeopleArray (value : JSVal) : List Person :=
  if truthy value = false then []
  else
    match value with
    | .jarr xs => peopleOfArray xs
    | .jobj _ =>
        match nestedPeopleSource value with
        | some xs => peopleOfArray xs
        | none =>
            match normalizePerson value with
            | some p => [p]
            | none => []
    | .jstr s =>
        ((splitDelimiters s).map jsTrim).filter (fun piece => piece != "")
          |>.map (fun name => ⟨name, name, ""⟩)
    | _ => []

/-- The dedup key of `mergePeople`: `person.id != null ? String(person.id)
: person.name ?? ''`.  Normalized persons always carry a string id, so the
key is the id. -/
def personKey (p : Person) : String := p.id

/-- One step of `mergePeople`'s `seen` map: insert a person unless its key
is empty or already present (first occurrence wins, insertion order kept). -/
def dedupInsert (acc : List Person) (person : Person) : List Person :=
  let key := personKey person
  if key = "" then acc
  else if acc.any (fun p => personKey p == key) then acc
  else acc ++ [person]

/-- Fold one normalized source into the accumulated deduplicated list. -/
def addPeople (acc : List Person) (ps : List Person) : List Person :=
  ps.foldl dedupInsert acc

/-- Source `mergePeople(...sources)` from `VersionsPage.tsx`: normalize each
source, concatenate, deduplicate by key, first-seen order preserved. -/
def mergePeople (sources : List JSVal) : List Person :=
  sources.foldl (fun acc source => addPeople acc (toPeopleArray source)) []

mutual

/-- Source `toSynopsisString` from `VersionsPage.tsx`: recursive stringify of a
synopsis candidate (string, array of candidates, or object with a
text-like field). -/
def toSynopsisString (value : JSVal) : String :=
  if truthy value = false then ""
  else
    match value with
    | .jstr s => jsTrim s
    | .jarr xs => synopsisOfList xs
    | .jobj _ =>
        firstNonEmptyTrimmed [jget value "text", jget value "synopsis",
          jget value "summary", jget value "plot"]
    | _ => ""

/-- Embeds `value.map(toSynopsisString).find(Boolean) || ''` for the array case. -/
def synopsisOfList : List JSVal → String
  | [] => ""
  | x :: rest =>
      let s := toSynopsisString x
      if s = "" then synopsisOfList rest else s

end

/-- Source `toRuntimeString` from `VersionsPage.tsx`: a finite duration in seconds
is clamped at zero, rounded, and formatted as hours/minutes; a string is
trimmed; anything else gives the empty string. -/
def toRuntimeString (value : JSVal) : String :=
  match value with
  | .jnull => ""
  | .jnum finite _ round =>
      if finite then
        let totalSeconds := (max 0 round).toNat
        let totalMinutes := totalSeconds / 60
        let hours := totalMinutes / 60
        let minutes := totalMinutes % 60
        if 0 < hours ∧ 0 < minutes then
          Nat.repr hours ++ "h " ++ Nat.repr minutes ++ "m"
        else if 0 < hours then Nat.repr hours ++ "h"
        else if 0 < minutes then Nat.repr minutes ++ "m"
        else "0m"
      else ""
  | .jstr s => jsTrim s
  | _ => ""

/-- Type `MovieCredits` from src/src/types.ts: the three credit buckets. -/
structure MovieCredits where
  writers : List Person
  directors : List Person
  stars : List Person
deriving DecidableEq

/-- Embeds `createEmptyCredits()` from `VersionsPage.tsx`. -/
def emptyCredits : MovieCredits := ⟨[], [], []⟩

/-- Embeds `Object.values(cachedCredits).some(list => Array.isArray(list) &&
list.length > 0)` from `VersionsPage.tsx`. -/
def creditsNonEmpty (cr : MovieCredits) : Bool :=
  !cr.writers.isEmpty || !cr.directors.isEmpty || !cr.stars.isEmpty

/-- A `MovieCacheEntry` (src/src/types.ts): the metadata record stored in
the movie cache.  Field order: posterUrl, title, year, runtime, imdbId,
synopsis, credits, imdbDetailsFetched.  `year` is `string | number` in the
source; the number case is irrelevant to every claim and it is modelled as
a string. -/
structure MovieCacheEntry where
  posterUrl : Option String
  title : Option String
  year : Option String
  runtime : Option String
  imdbId : Option String
  synopsis : Option String
  credits : Option MovieCredits
  imdbDetailsFetched : Option Bool
deriving DecidableEq

/-- The record `{}` used as the default when a cache entry is absent. -/
def emptyEntry : MovieCacheEntry := ⟨none, none, none, none, none, none, none, none⟩

/-- The process-wide `movieCache` map, string key to record. -/
def Cache : Type := String → Option MovieCacheEntry

/-- The empty cache. -/
def emptyCache : Cache := fun _ => none

/-- Embeds `movieCache.set(key, entry)`. -/
def cacheSet (c : Cache) (k : String) (v : MovieCacheEntry) : Cache :=
  fun x => if x = k then some v else c x

/-- A light search-result record as consumed by `rememberMovies`
(`MovieSummary` fields used by the merge; `id` is `none` for a record the
merge skips). -/
structure MovieSummary where
  id : Option String
  posterUrl : Option String
  title : Option String
  year : Option String
  runtime : Option String
  imdbId : Option String
deriving DecidableEq

/-- The body of `rememberMovies`'s `forEach` for one movie
(src/unnamed/part_005, lines 61-76): skip a record without an id, then
write a merged entry where each light field present (non-null) on the
input overwrites via `??`, and synopsis/credits/imdbDetailsFetched are
carried over from the existing entry. -/
def rememberOne (c : Cache) (movie : MovieSummary) : Cache :=
  match movie.id with
  | none => c
  | some mid =>
      let existing := (c mid).getD emptyEntry
      cacheSet c mid ⟨
        nullish movie.posterUrl existing.posterUrl,
        nullish movie.title existing.title,
        nullish movie.year existing.year,
        nullish movie.runtime existing.runtime,
        nullish movie.imdbId existing.imdbId,
        existing.synopsis,
        existing.credits,
        existing.imdbDetailsFetched⟩

/-- Source `rememberMovies(movies)` from src/unnamed/part_005, lines 60-78. -/
def rememberMovies (c : Cache) (movies : List MovieSummary) : Cache :=
  movies.foldl rememberOne c

/-- The per-bucket credit merge of `fetchImdbDetails`
(`VersionsPage.tsx`, lines 348-354): a non-empty new bucket replaces, an
empty one keeps the cached bucket. -/
def mergeBuckets (next cached : MovieCredits) : MovieCredits :=
  ⟨if next.writers.length ≠ 0 then next.writers else cached.writers,
   if next.directors.length ≠ 0 then next.directors else cached.directors,
   if next.stars.length ≠ 0 then next.stars else cached.stars⟩

/-- The cache write of `fetchImdbDetails` (`VersionsPage.tsx`, lines
363-372): spread the existing entry, keep an existing imdbId (`??`),
prefer the first non-empty of new/existing/snapshot for runtime and
synopsis, install the merged credits and set `imdbDetailsFetched`
unconditionally to true.  `cachedSynopsis`/`cachedRuntime` are the values
captured from the cache entry when the enrichment effect started. -/
def mergeDetailsWrite (c : Cache) (movieKey imdbId : String)
    (cachedSynopsis cachedRuntime : Option String)
    (nextRuntime cleanSynopsis : String) (mergedCredits : MovieCredits) : Cache :=
  let existing := (c movieKey).getD emptyEntry
  cacheSet c movieKey ⟨
    existing.posterUrl,
    existing.title,
    existing.year,
    some (orElseStr nextRuntime
      (orElseStr (existing.runtime.getD "") (cachedRuntime.getD ""))),
    nullish existing.imdbId (some imdbId),
    some (orElseStr cleanSynopsis
      (orElseStr (existing.synopsis.getD "") (cachedSynopsis.getD ""))),
    some mergedCredits,
    some true⟩

/-- A cache mutation of the metadata pipeline: a `rememberMovies` pass over
a search-result list, or the enrichment merge for one key.  In the merge,
`nextRuntime`, `cleanSynopsis` and `nextCredits` are the values extracted
from the successful fetch. -/
inductive CacheOp where
  | remember (movies : List MovieSummary)
  | merge (key imdbId nextRuntime cleanSynopsis : String) (nextCredits : MovieCredits)
deriving DecidableEq

/-- Execute one cache operation.  A merge executed synchronously reads its
snapshot (`cachedMovie`) from the cache at operation time, so the snapshot
equals the existing entry. -/
def applyOp (c : Cache) : CacheOp → Cache
  | .remember ms => rememberMovies c ms
  | .merge k imdbId nr cs nc =>
      let snapshot := (c k).getD emptyEntry
      mergeDetailsWrite c k imdbId snapshot.synopsis snapshot.runtime nr cs
        (mergeBuckets nc (snapshot.credits.getD emptyCredits))

/-- How the enrichment effect of `VersionsPage.tsx` (lines 111-141)
proceeds for the current cache entry: return early with no cached movie
(`noEntry`), return early with a falsy imdbId (`noImdbId`), treat the
cache as sufficient (`skipCached`, lines 137-139), or start the fetch. -/
inductive EnrichDecision where
  | noEntry
  | noImdbId
  | skipCached
  | fetch
deriving DecidableEq

/-- The early-return guards of the enrichment effect
(`VersionsPage.tsx`, lines 125-139). -/
def enrichDecision (cachedMovie : Option MovieCacheEntry) : EnrichDecision :=
  match cachedMovie with
  | none => .noEntry
  | some m =>
      if m.imdbId.getD "" = "" then .noImdbId
      else
        if m.imdbDetailsFetched.getD false = true ∧
            (m.synopsis.getD "" ≠ "" ∨
              creditsNonEmpty (m.credits.getD emptyCredits) = true) then
          .skipCached
        else .fetch

/-- The view-layer state touched by the enrichment pipeline: the synopsis,
credits and runtime display state, the enrichment loading indicator, and
the app-level error slot written through the `setError` prop. -/
structure ViewState where
  synopsis : String
  credits : MovieCredits
  runtime : String
  imdbLoading : Bool
  errorSlot : String
deriving DecidableEq

/-- The cache-seeding effect of `VersionsPage.tsx` (lines 111-123): on
mount or title change, the view state is reset from the cache entry and
the loading indicator is cleared. -/
def mountViewState (cachedMovie : Option MovieCacheEntry) (view : ViewState) : ViewState :=
  match cachedMovie with
  | some m =>
      ⟨m.synopsis.getD "", m.credits.getD emptyCredits, m.runtime.getD "",
        false, view.errorSlot⟩
  | none => ⟨"", emptyCredits, "", false, view.errorSlot⟩

/-- The start of the enrichment effect: `setImdbLoading(true)` runs only
inside `fetchImdbDetails`, which is only invoked when none of the
early-return guards fired. -/
def enrichEffectStart (cachedMovie : Option MovieCacheEntry) (view : ViewState) : ViewState :=
  if enrichDecision cachedMovie = .fetch then
    ⟨view.synopsis, view.credits, view.runtime, true, view.errorSlot⟩
  else view

/-- The outcome of the awaited `getImdbDetails` call: a parsed JSON body,
or a thrown error (network failure, non-2xx, malformed body). -/
inductive FetchOutcome where
  | success (data : JSVal)
  | failure (message : String)

/-- The resolution of `fetchImdbDetails` (`VersionsPage.tsx`, lines
300-378) after the awaited fetch settles.  `cancelled` is the
per-invocation flag set by the effect cleanup when the view unmounts or
the title changes.  `cachedMovie` is the entry captured when the effect
ran.  Returns the cache and view state after the handler finishes: a
cancelled resolution returns both unchanged (the success path returns
before any mutation, the failure path only logs, and the `finally` clause
skips `setImdbLoading(false)` when cancelled). -/
def resolveImdbFetch (cancelled : Bool) (outcome : FetchOutcome)
    (movieKey imdbId : String) (cachedMovie : MovieCacheEntry)
    (c : Cache) (view : ViewState) : Cache × ViewState :=
  match outcome with
  | .failure _ =>
      (c, if cancelled then view
          else ⟨view.synopsis, view.credits, view.runtime, false, view.errorSlot⟩)
  | .success data =>
      if cancelled then (c, view)
      else
        let cachedSynopsis := cachedMovie.synopsis
        let cachedCredits := cachedMovie.credits.getD emptyCredits
        let nextSynopsis :=
          orElseStr (toSynopsisString (jget data "synopsis"))
            (orElseStr (toSynopsisString (jget data "plot"))
              (orElseStr (toSynopsisString (jget data "plotSummary"))
                (toSynopsisString (jget data "short"))))
        let nextRuntime := toRuntimeString (jget data "runtimeSeconds")
        let nextCredits : MovieCredits := ⟨
          mergePeople [jget (jget data "credits") "writers",
            jget (jget data "credits") "writing",
            jget (jget data "credits") "writer",
            jget data "writers", jget data "writer", jget data "writerList"],
          mergePeople [jget (jget data "credits") "directors",
            jget (jget data "credits") "direction",
            jget (jget data "credits") "director",
            jget data "directors", jget data "director",
            jget data "creators", jget data "creatorList"],
          mergePeople [jget (jget data "credits") "stars",
            jget (jget data "credits") "cast",
            jget (jget data "credits") "actors",
            jget data "stars", jget data "cast", jget data "actors",
            jget data "principalCast"]⟩
        let cleanSynopsis := jsTrim nextSynopsis
        let mergedCredits := mergeBuckets nextCredits cachedCredits
        let viewSynopsis :=
          if cleanSynopsis ≠ "" ∨ cachedSynopsis.getD "" ≠ "" then
            orElseStr cleanSynopsis (cachedSynopsis.getD "")
          else view.synopsis
        let view2 : ViewState := ⟨viewSynopsis, mergedCredits,
          orElseStr nextRuntime (cachedMovie.runtime.getD ""), false,
          view.errorSlot⟩
        let c2 := mergeDetailsWrite c movieKey imdbId cachedSynopsis
          cachedMovie.runtime nextRuntime cleanSynopsis mergedCredits
        (c2, view2)

/-- The relevant observations of a `fetch` response in `searchMovies`
(src/src/api.ts): `res.ok`, `res.status` and the body text read by
`res.text()`. -/
structure HttpResponse where
  ok : Bool
  status : Nat
  bodyText : String
deriving DecidableEq

/-- A JS value reaching a `catch` handler: a native `Error` (with its
`message` and the result of `JSON.stringify` on it, `none` when stringify
throws), a plain string, or some other value with its stringification. -/
inductive ThrownValue where
  | errorObj (message : String) (stringified : Option String)
  | strVal (s : String)
  | otherVal (stringified : Option String)
deriving DecidableEq

/-- Source `toErrorMessage` from the errors module (src/unnamed/part_004): prefer
a native error's non-empty message, else a string value itself, else
`JSON.stringify`, else the literal fallback. -/
def toErrorMessage : ThrownValue → String
  | .errorObj msg strf =>
      if msg ≠ "" then msg else strf.getD "Something went wrong"
  | .strVal s => s
  | .otherVal strf => strf.getD "Something went wrong"

/-- The non-embedded branch of `searchMovies` (src/src/api.ts, lines
27-38) after the response arrives: a non-2xx response throws
`new Error(text || fallback)` (a fresh `Error` stringifies as `{}`), a 2xx
response resolves with the body. -/
def searchMovies (res : HttpResponse) : Except ThrownValue String :=
  if res.ok = false then
    Except.error (ThrownValue.errorObj
      (orElseStr res.bodyText ("Search failed (" ++ Nat.repr res.status ++ ")"))
      (some "\x7b\x7d"))
  else Except.ok res.bodyText

/-- The eight fields of a `MovieCacheEntry`. -/
inductive CacheField where
  | posterUrl
  | title
  | year
  | runtime
  | imdbId
  | synopsis
  | credits
  | detailsFetched
deriving DecidableEq

/-- A field's value, wrapped so that string fields, the credits field and
the boolean flag can be compared uniformly. -/
inductive FieldVal where
  | str (s : Option String)
  | creds (c : Option MovieCredits)
  | flag (b : Option Bool)
deriving DecidableEq

/-- Project one field out of a cache entry. -/
def MovieCacheEntry.fieldVal (e : MovieCacheEntry) : CacheField → FieldVal
  | .posterUrl => .str e.posterUrl
  | .title => .str e.title
  | .year => .str e.year
  | .runtime => .str e.runtime
  | .imdbId => .str e.imdbId
  | .synopsis => .str e.synopsis
  | .credits => .creds e.credits
  | .detailsFetched => .flag e.imdbDetailsFetched

/-- A field value is non-empty when it is a present non-empty string, a
present credits record with at least one non-empty bucket, or the present
flag `true`. -/
def FieldVal.nonEmpty : FieldVal → Bool
  | .str (some s) => decide (s ≠ "")
  | .str none => false
  | .creds (some cr) => creditsNonEmpty cr
  | .creds none => false
  | .flag (some b) => b
  | .flag none => false

/-- The value of field `f` of the entry at key `k` (an absent entry reads
as the all-absent record `{}`). -/
def getFieldC (c : Cache) (k : String) (f : CacheField) : FieldVal :=
  ((c k).getD emptyEntry).fieldVal f

/-- A light record's input is harmless for field `f` at key `k`: either it
addresses another key, or it carries an absent (null/undefined) value for
`f`.  Light records never carry synopsis, credits or the fetched flag. -/
def movieSafeFor (m : MovieSummary) (k : String) (f : CacheField) : Bool :=
  if m.id = some k then
    match f with
    | .posterUrl => m.posterUrl.isNone
    | .title => m.title.isNone
    | .year => m.year.isNone
    | .runtime => m.runtime.isNone
    | .imdbId => m.imdbId.isNone
    | .synopsis => true
    | .credits => true
    | .detailsFetched => true
  else true

/-- A merge input is empty for field `f`: the extracted runtime/synopsis
string is empty, all extracted credit buckets are empty.  A merge never
carries posterUrl/title/year, never replaces a present imdbId, and only
ever writes `true` to the fetched flag, so those fields are
unconstrained. -/
def mergeFieldSafe (nr cs : String) (nc : MovieCredits) : CacheField → Bool
  | .runtime => decide (nr = "")
  | .synopsis => decide (cs = "")
  | .credits => nc.writers.isEmpty && nc.directors.isEmpty && nc.stars.isEmpty
  | _ => true

/-- An operation's input carries no overwriting value for field `f` at key
`k`: every light record addressed at `k` has the field absent
(null/undefined), and a merge at `k` carries an empty extracted value for
the fields the merge writes from its input. -/
def opSafeFor (op : CacheOp) (k : String) (f : CacheField) : Bool :=
  match op with
  | .remember ms => ms.all (fun m => movieSafeFor m k f)
  | .merge mkey _ nr cs nc =>
      if mkey = k then mergeFieldSafe nr cs nc f else true

theorem padStart7_length (s : String) : 7 ≤ (padStart7 s).length := by
  unfold padStart7
  rw [String.length_append]
  have h : (String.mk (List.replicate (7 - s.length) '0')).length = 7 - s.length := by
    show (List.replicate (7 - s.length) '0').length = 7 - s.length
    simp
  omega

theorem resultLenOk_tt (digits : String) :
    resultLenOk (some ("tt" ++ padStart7 digits)) = true := by
  have h : 9 ≤ ("tt" ++ padStart7 digits).length := by
    rw [String.length_append]
    have h1 := padStart7_length digits
    have h2 : ("tt" : String).length = 2 := rfl
    omega
  unfold resultLenOk
  simp only [Bool.or_eq_true, decide_eq_true_eq]
  right
  exact h

/-- C2 counterexample: at the finite number 1e21 the source returns
"tt001e+21" — `Math.abs(Math.trunc(1e21)).toString()` is the exponential
notation "1e+21" (JS switches to exponential notation at 1e21), which
padStart pads to "001e+21" — and not the prefix "tt" followed by the
zero-padded decimal digits of the truncated absolute value that the claim
describes, refuting the claimed decimal-digit categorization of the
number case. -/
theorem formatImdbId_number_counterexample :
    formatImdbId (.jnum true 1000000000000000000000 1000000000000000000000) =
      some "tt001e+21" ∧
    normalizeExternalIdSpec
        (.jnum true 1000000000000000000000 1000000000000000000000) =
      some ("tt" ++ Nat.repr 1000000000000000000000) ∧
    formatImdbId (.jnum true 1000000000000000000000 1000000000000000000000) ≠
      normalizeExternalIdSpec
        (.jnum true 1000000000000000000000 1000000000000000000000) := by
  refine ⟨by decide, by decide, by decide⟩

/-- C2 (amended): the identifier normalizer never raises (it is total over
`JSVal`), every non-null non-empty result is at least 9 characters long on
every input, and on every input that is not a finite number beyond the
safe-integer range — i.e. null, strings, non-number values, and finite
numbers whose truncated absolute value is below 2^53 — the result equals
the spec-worded normalizer `normalizeExternalIdSpec`; in particular a
safe finite number yields "tt" plus the zero-padded decimal digits of its
truncated absolute value.  (Amended: from 2^53 on the JS number-to-string
conversion produces shortest round-trip digits rather than the exact
decimal digits, and from 1e21 on exponential notation — 1e21 gives
"tt001e+21" — so the decimal-digit description of the number case is
restricted to the safe-integer range; the totality and length guarantees
are kept for all inputs.) -/
theorem formatImdbId_contract (v : JSVal) :
    (numSafe v = true → formatImdbId v = normalizeExternalIdSpec v) ∧
    resultLenOk (formatImdbId v) = true := by
  constructor
  · intro hsafe
    cases v with
    | jnull => rfl
    | jbool b => rfl
    | jarr xs => rfl
    | jobj fs => rfl
    | jstr s => rfl
    | jnum finite t r =>
        cases finite with
        | false => rfl
        | true =>
            have ht : t.natAbs < 9007199254740992 := of_decide_eq_true hsafe
            have hnum : jsNumToString t.natAbs = Nat.repr t.natAbs := by
              unfold jsNumToString
              rw [if_pos ht]
            show (if jsNumToString t.natAbs = "" then none
              else some ("tt" ++ padStart7 (jsNumToString t.natAbs))) =
              (if Nat.repr t.natAbs = "" then none
               else some ("tt" ++ leftPadZeros 7 (Nat.repr t.natAbs)))
            rw [hnum]
            rfl
  · cases v with
    | jnull => rfl
    | jbool b => rfl
    | jarr xs => rfl
    | jobj fs => rfl
    | jnum finite t r =>
        cases finite with
        | false => rfl
        | true =>
            show resultLenOk (if jsNumToString t.natAbs = "" then none
              else some ("tt" ++ padStart7 (jsNumToString t.natAbs))) = true
            split
            · rfl
            · exact resultLenOk_tt _
    | jstr s =>
        simp only [formatImdbId]
        split
        · rfl
        · split
          · rfl
          · exact resultLenOk_tt _

/-- Witness for the amended C2 at concrete safe inputs: a string id and a
safe finite number. -/
theorem formatImdbId_contract_witness :
    (numSafe (.jstr " tt0133093 ") = true ∧
      formatImdbId (.jstr " tt0133093 ") =
        normalizeExternalIdSpec (.jstr " tt0133093 ") ∧
      resultLenOk (formatImdbId (.jstr " tt0133093 ")) = true) ∧
    (numSafe (.jnum true 1234567890 1234567890) = true ∧
      formatImdbId (.jnum true 1234567890 1234567890) =
        normalizeExternalIdSpec (.jnum true 1234567890 1234567890) ∧
      resultLenOk (formatImdbId (.jnum true 1234567890 1234567890)) = true) := by
  have h1 := formatImdbId_contract (.jstr " tt0133093 ")
  have h2 := formatImdbId_contract (.jnum true 1234567890 1234567890)
  exact ⟨⟨by decide, h1.1 (by decide), h1.2⟩, ⟨by decide, h2.1 (by decide), h2.2⟩⟩

/-- C10: on every input outside the declared `number | string | null |
undefined` contract domain — booleans, arrays, objects, and the non-finite
numbers (NaN and the infinities) — `formatImdbId` returns null without
raising, so the function is total over arbitrary unknown values. -/
theorem formatImdbId_total_beyond_contract (b : Bool) (t r : Int)
    (xs : List JSVal) (fs : List (String × JSVal)) :
    formatImdbId (.jbool b) = none ∧ formatImdbId (.jnum false t r) = none ∧
    formatImdbId (.jarr xs) = none ∧ formatImdbId (.jobj fs) = none :=
  ⟨rfl, rfl, rfl, rfl⟩

/-- C3: a resolution of an enrichment fetch whose per-invocation cancelled
flag is set (the view unmounted or the active title changed before the
fetch settled) performs no cache write and no view-state mutation — cache
and view state are returned unchanged, so in particular the cache entry
for the stale title is untouched — and a subsequent resolution for the
now-current title B computes exactly what it would have computed had the
stale resolution never happened. -/
theorem enrichment_cancellation_safe (outcome outcomeB : FetchOutcome)
    (cancelledB : Bool) (kA idA kB idB : String)
    (snapA snapB : MovieCacheEntry) (c : Cache) (v : ViewState) :
    resolveImdbFetch true outcome kA idA snapA c v = (c, v) ∧
    resolveImdbFetch cancelledB outcomeB kB idB snapB
        (resolveImdbFetch true outcome kA idA snapA c v).1
        (resolveImdbFetch true outcome kA idA snapA c v).2 =
      resolveImdbFetch cancelledB outcomeB kB idB snapB c v := by
  have h1 : resolveImdbFetch true outcome kA idA snapA c v = (c, v) := by
    cases outcome <;> simp [resolveImdbFetch]
  exact ⟨h1, by rw [h1]⟩

/-- C6: a failed enrichment fetch (network error, non-2xx, malformed body)
leaves the metadata cache completely unchanged — in particular
`imdbDetailsFetched` keeps its prior value — and never touches the
user-visible error slot or the displayed synopsis/credits/runtime; the
only view-state effect is clearing the loading indicator (when not
cancelled). -/
theorem enrichment_failure_atomic (cancelled : Bool) (err : String)
    (k idv : String) (snap : MovieCacheEntry) (c : Cache) (v : ViewState) :
    (resolveImdbFetch cancelled (.failure err) k idv snap c v).1 = c ∧
    (resolveImdbFetch cancelled (.failure err) k idv snap c v).2.errorSlot = v.errorSlot ∧
    (resolveImdbFetch cancelled (.failure err) k idv snap c v).2.synopsis = v.synopsis ∧
    (resolveImdbFetch cancelled (.failure err) k idv snap c v).2.credits = v.credits ∧
    (resolveImdbFetch cancelled (.failure err) k idv snap c v).2.runtime = v.runtime ∧
    (resolveImdbFetch cancelled (.failure err) k idv snap c v).2.imdbLoading =
      (if cancelled then v.imdbLoading else false) := by
  cases cancelled <;> simp [resolveImdbFetch]

theorem searchFallback_ne (n : Nat) :
    "Search failed (" ++ Nat.repr n ++ ")" ≠ "" := by
  intro h
  have hlen := congrArg String.length h
  rw [String.length_append, String.length_append] at hlen
  have h1 : ("Search failed (" : String).length = 15 := rfl
  have h2 : ("" : String).length = 0 := rfl
  omega

/-- C9: a failed catalog search raises an error whose message equals the
response body text when that text is non-empty and the fallback
"Search failed (status)" otherwise; the display string extracted from a
thrown value prefers a native Error's non-empty message, else the string
itself, else a stringification — so a search failing with HTTP 500 and
body "db unavailable" displays exactly "db unavailable". -/
theorem search_error_body_precedence (res : HttpResponse) (s j msg : String)
    (strf : Option String) (hfail : res.ok = false) :
    (∃ tv, searchMovies res = Except.error tv ∧
      toErrorMessage tv =
        (if res.bodyText = "" then "Search failed (" ++ Nat.repr res.status ++ ")"
         else res.bodyText)) ∧
    (msg ≠ "" → toErrorMessage (.errorObj msg strf) = msg) ∧
    toErrorMessage (.strVal s) = s ∧
    toErrorMessage (.otherVal (some j)) = j := by
  refine ⟨?_, ?_, rfl, rfl⟩
  · refine ⟨ThrownValue.errorObj
      (orElseStr res.bodyText ("Search failed (" ++ Nat.repr res.status ++ ")"))
      (some "\x7b\x7d"), ?_, ?_⟩
    · unfold searchMovies
      rw [if_pos hfail]
    · by_cases hb : res.bodyText = ""
      · rw [if_pos hb]
        unfold orElseStr
        rw [if_pos hb]
        show (if "Search failed (" ++ Nat.repr res.status ++ ")" ≠ "" then
          "Search failed (" ++ Nat.repr res.status ++ ")"
          else (some "\x7b\x7d").getD "Something went wrong") = _
        rw [if_pos (searchFallback_ne res.status)]
      · rw [if_neg hb]
        unfold orElseStr
        rw [if_neg hb]
        show (if res.bodyText ≠ "" then res.bodyText
          else (some "\x7b\x7d").getD "Something went wrong") = res.bodyText
        rw [if_pos hb]
  · intro h
    show (if msg ≠ "" then msg else strf.getD "Something went wrong") = msg
    rw [if_pos h]

/-- Witness for C9 at the spec's concrete scenario: HTTP 500 with body
"db unavailable" displays exactly "db unavailable". -/
theorem search_error_body_precedence_witness :
    (∃ tv, searchMovies ⟨false, 500, "db unavailable"⟩ = Except.error tv ∧
      toErrorMessage tv = "db unavailable") ∧
    toErrorMessage (.strVal "oops") = "oops" := by
  have h := search_error_body_precedence ⟨false, 500, "db unavailable"⟩
    "oops" "j" "m" none rfl
  obtain ⟨⟨tv, htv, hmsg⟩, _, hs, _⟩ := h
  refine ⟨⟨tv, htv, ?_⟩, hs⟩
  rw [hmsg]
  rfl

/-- C7: for a cached record whose external metadata id is absent, the
enrichment effect's Checking step never reaches the fetch, the loading
indicator ends up false after mount and effect start (no perpetual
spinner), and with no cached synopsis/credits the view shows empty
synopsis and credits for that title. -/
theorem missing_imdbId_skips_enrichment (m : MovieCacheEntry) (v : ViewState)
    (h : m.imdbId = none) :
    enrichDecision (some m) ≠ .fetch ∧
    (enrichEffectStart (some m) (mountViewState (some m) v)).imdbLoading = false ∧
    (m.synopsis = none → (mountViewState (some m) v).synopsis = "") ∧
    (m.credits = none → (mountViewState (some m) v).credits = emptyCredits) := by
  have hd : enrichDecision (some m) = .noImdbId := by
    show (if m.imdbId.getD "" = "" then EnrichDecision.noImdbId
      else if m.imdbDetailsFetched.getD false = true ∧
          (m.synopsis.getD "" ≠ "" ∨ creditsNonEmpty (m.credits.getD emptyCredits) = true)
        then EnrichDecision.skipCached else EnrichDecision.fetch) = EnrichDecision.noImdbId
    rw [h]
    rfl
  refine ⟨?_, ?_, ?_, ?_⟩
  · rw [hd]
    intro hc
    cases hc
  · unfold enrichEffectStart
    rw [hd]
    rw [if_neg (by intro hc; cases hc)]
    rfl
  · intro hs
    show m.synopsis.getD "" = ""
    rw [hs]
    rfl
  · intro hc
    show m.credits.getD emptyCredits = emptyCredits
    rw [hc]
    rfl

/-- Witness for C7: a cached record with no imdbId and no
synopsis/credits. -/
theorem missing_imdbId_skips_enrichment_witness :
    enrichDecision (some emptyEntry) ≠ .fetch ∧
    (enrichEffectStart (some emptyEntry)
      (mountViewState (some emptyEntry) ⟨"", emptyCredits, "", true, ""⟩)).imdbLoading = false ∧
    (mountViewState (some emptyEntry) ⟨"", emptyCredits, "", true, ""⟩).synopsis = "" ∧
    (mountViewState (some emptyEntry) ⟨"", emptyCredits, "", true, ""⟩).credits = emptyCredits := by
  have h := missing_imdbId_skips_enrichment emptyEntry ⟨"", emptyCredits, "", true, ""⟩ rfl
  exact ⟨h.1, h.2.1, h.2.2.1 rfl, h.2.2.2 rfl⟩

/-- C5: every successful (non-cancelled) enrichment resolution writes the
merged record with `imdbDetailsFetched = true` regardless of what the
response contained, and whenever a cached record has the flag true and a
non-empty synopsis or at least one non-empty credit bucket, the Checking
step does not reach the fetch — no further metadata fetch is issued for
that title even if the view remounts. -/
theorem enrichment_at_most_once (data : JSVal) (k idv : String)
    (snap m : MovieCacheEntry) (c : Cache) (v : ViewState)
    (hfetched : m.imdbDetailsFetched = some true)
    (hhas : m.synopsis.getD "" ≠ "" ∨
      creditsNonEmpty (m.credits.getD emptyCredits) = true) :
    ((resolveImdbFetch false (.success data) k idv snap c v).1 k).bind
      MovieCacheEntry.imdbDetailsFetched = some true ∧
    enrichDecision (some m) ≠ .fetch := by
  constructor
  · simp [resolveImdbFetch, mergeDetailsWrite, cacheSet]
  · show (if m.imdbId.getD "" = "" then EnrichDecision.noImdbId
      else if m.imdbDetailsFetched.getD false = true ∧
          (m.synopsis.getD "" ≠ "" ∨ creditsNonEmpty (m.credits.getD emptyCredits) = true)
        then EnrichDecision.skipCached else EnrichDecision.fetch) ≠ EnrichDecision.fetch
    by_cases hid : m.imdbId.getD "" = ""
    · rw [if_pos hid]
      intro hc
      cases hc
    · rw [if_neg hid]
      have hcond : m.imdbDetailsFetched.getD false = true ∧
          (m.synopsis.getD "" ≠ "" ∨
            creditsNonEmpty (m.credits.getD emptyCredits) = true) :=
        ⟨by rw [hfetched]; rfl, hhas⟩
      rw [if_pos hcond]
      intro hc
      cases hc

/-- Witness for C5: a successful fetch of an empty JSON object still sets
the flag, and a record with the flag and a synopsis skips. -/
theorem enrichment_at_most_once_witness :
    ((resolveImdbFetch false (.success (.jobj [])) "1" "0000001" emptyEntry
        emptyCache ⟨"", emptyCredits, "", false, ""⟩).1 "1").bind
      MovieCacheEntry.imdbDetailsFetched = some true ∧
    enrichDecision (some ⟨none, none, none, none, some "0000001",
      some "A plot", some emptyCredits, some true⟩) ≠ .fetch :=
  enrichment_at_most_once (.jobj []) "1" "0000001" emptyEntry
    ⟨none, none, none, none, some "0000001", some "A plot", some emptyCredits, some true⟩
    emptyCache ⟨"", emptyCredits, "", false, ""⟩ rfl (Or.inl (by decide))

theorem cacheSet_get_same (c : Cache) (k : String) (e : MovieCacheEntry) :
    cacheSet c k e k = some e := by
  unfold cacheSet
  rw [if_pos rfl]

theorem cacheSet_get_other (c : Cache) (k j : String) (e : MovieCacheEntry)
    (h : j ≠ k) : cacheSet c k e j = c j := by
  unfold cacheSet
  rw [if_neg h]

theorem orElseStr_self (s : String) : orElseStr s s = s := by
  unfold orElseStr
  split <;> rfl

theorem orElseStr_empty (b : String) : orElseStr "" b = b := by
  unfold orElseStr
  rw [if_pos rfl]

theorem rememberOne_preserves (c : Cache) (k : String) (f : CacheField)
    (m : MovieSummary) (hm : movieSafeFor m k f = true) :
    getFieldC (rememberOne c m) k f = getFieldC c k f := by
  cases hid : m.id with
  | none =>
      unfold getFieldC rememberOne
      rw [hid]
  | some mid =>
      have hre : rememberOne c m = cacheSet c mid ⟨
          nullish m.posterUrl ((c mid).getD emptyEntry).posterUrl,
          nullish m.title ((c mid).getD emptyEntry).title,
          nullish m.year ((c mid).getD emptyEntry).year,
          nullish m.runtime ((c mid).getD emptyEntry).runtime,
          nullish m.imdbId ((c mid).getD emptyEntry).imdbId,
          ((c mid).getD emptyEntry).synopsis,
          ((c mid).getD emptyEntry).credits,
          ((c mid).getD emptyEntry).imdbDetailsFetched⟩ := by
        unfold rememberOne
        rw [hid]
      unfold getFieldC
      rw [hre]
      by_cases hk : k = mid
      case neg => rw [cacheSet_get_other _ _ _ _ hk]
      case pos =>
        subst hk
        have hidk : m.id = some k := hid
        unfold movieSafeFor at hm
        rw [if_pos hidk] at hm
        rw [cacheSet_get_same]
        cases f with
        | posterUrl =>
            show FieldVal.str (nullish m.posterUrl ((c k).getD emptyEntry).posterUrl) = _
            rw [Option.isNone_iff_eq_none.mp hm]
            rfl
        | title =>
            show FieldVal.str (nullish m.title ((c k).getD emptyEntry).title) = _
            rw [Option.isNone_iff_eq_none.mp hm]
            rfl
        | year =>
            show FieldVal.str (nullish m.year ((c k).getD emptyEntry).year) = _
            rw [Option.isNone_iff_eq_none.mp hm]
            rfl
        | runtime =>
            show FieldVal.str (nullish m.runtime ((c k).getD emptyEntry).runtime) = _
            rw [Option.isNone_iff_eq_none.mp hm]
            rfl
        | imdbId =>
            show FieldVal.str (nullish m.imdbId ((c k).getD emptyEntry).imdbId) = _
            rw [Option.isNone_iff_eq_none.mp hm]
            rfl
        | synopsis => rfl
        | credits => rfl
        | detailsFetched => rfl

theorem rememberMovies_preserves (k : String) (f : CacheField) :
    ∀ (ms : List MovieSummary) (c : Cache),
      (∀ m ∈ ms, movieSafeFor m k f = true) →
      getFieldC (rememberMovies c ms) k f = getFieldC c k f := by
  intro ms
  induction ms with
  | nil => intro c _; rfl
  | cons m rest ih =>
      intro c hms
      show getFieldC (rememberMovies (rememberOne c m) rest) k f = _
      rw [ih (rememberOne c m) (fun x hx => hms x (List.mem_cons_of_mem _ hx))]
      exact rememberOne_preserves c k f m (hms m (List.mem_cons_self _ _))

theorem mergeOp_preserves (c : Cache) (k j : String) (f : CacheField)
    (imdbIdArg nr cs : String) (nc : MovieCredits)
    (hne : (getFieldC c k f).nonEmpty = true)
    (hop : opSafeFor (.merge j imdbIdArg nr cs nc) k f = true) :
    getFieldC (applyOp c (.merge j imdbIdArg nr cs nc)) k f = getFieldC c k f := by
  have happ : applyOp c (.merge j imdbIdArg nr cs nc) = cacheSet c j ⟨
      ((c j).getD emptyEntry).posterUrl,
      ((c j).getD emptyEntry).title,
      ((c j).getD emptyEntry).year,
      some (orElseStr nr (orElseStr (((c j).getD emptyEntry).runtime.getD "")
        (((c j).getD emptyEntry).runtime.getD ""))),
      nullish ((c j).getD emptyEntry).imdbId (some imdbIdArg),
      some (orElseStr cs (orElseStr (((c j).getD emptyEntry).synopsis.getD "")
        (((c j).getD emptyEntry).synopsis.getD ""))),
      some (mergeBuckets nc (((c j).getD emptyEntry).credits.getD emptyCredits)),
      some true⟩ := rfl
  unfold getFieldC
  rw [happ]
  by_cases hk : k = j
  case neg =>
    rw [cacheSet_get_other _ _ _ _ hk]
  case pos =>
    subst hk
    have hopf : mergeFieldSafe nr cs nc f = true := by
      have h2 : (if k = k then mergeFieldSafe nr cs nc f else true) = true := hop
      rwa [if_pos rfl] at h2
    rw [cacheSet_get_same]
    cases f with
    | posterUrl => rfl
    | title => rfl
    | year => rfl
    | runtime =>
        cases he : ((c k).getD emptyEntry).runtime with
        | none =>
            exfalso
            have h3 : FieldVal.nonEmpty (FieldVal.str (((c k).getD emptyEntry).runtime)) = true := hne
            rw [he] at h3
            exact absurd h3 (by decide)
        | some s =>
            have hnr : nr = "" := of_decide_eq_true hopf
            show FieldVal.str (some (orElseStr nr (orElseStr s s))) =
              FieldVal.str ((c k).getD emptyEntry).runtime
            rw [he, hnr, orElseStr_empty, orElseStr_self]
    | synopsis =>
        cases he : ((c k).getD emptyEntry).synopsis with
        | none =>
            exfalso
            have h3 : FieldVal.nonEmpty (FieldVal.str (((c k).getD emptyEntry).synopsis)) = true := hne
            rw [he] at h3
            exact absurd h3 (by decide)
        | some s =>
            have hcs : cs = "" := of_decide_eq_true hopf
            show FieldVal.str (some (orElseStr cs (orElseStr s s))) =
              FieldVal.str ((c k).getD emptyEntry).synopsis
            rw [he, hcs, orElseStr_empty, orElseStr_self]
    | imdbId =>
        cases he : ((c k).getD emptyEntry).imdbId with
        | none =>
            exfalso
            have h3 : FieldVal.nonEmpty (FieldVal.str (((c k).getD emptyEntry).imdbId)) = true := hne
            rw [he] at h3
            exact absurd h3 (by decide)
        | some s =>
            show FieldVal.str (some s) = FieldVal.str ((c k).getD emptyEntry).imdbId
            rw [he]
    | credits =>
        cases he : ((c k).getD emptyEntry).credits with
        | none =>
            exfalso
            have h3 : FieldVal.nonEmpty (FieldVal.creds (((c k).getD emptyEntry).credits)) = true := hne
            rw [he] at h3
            exact absurd h3 (by decide)
        | some cr =>
            obtain ⟨hw, hd2, hs2⟩ : nc.writers = [] ∧ nc.directors = [] ∧ nc.stars = [] := by
              have h4 : (nc.writers.isEmpty && nc.directors.isEmpty && nc.stars.isEmpty) = true := hopf
              simp only [Bool.and_eq_true, List.isEmpty_iff] at h4
              exact ⟨h4.1.1, h4.1.2, h4.2⟩
            show FieldVal.creds (some (mergeBuckets nc cr)) =
              FieldVal.creds ((c k).getD emptyEntry).credits
            rw [he]
            unfold mergeBuckets
            rw [hw, hd2, hs2]
            rfl
    | detailsFetched =>
        cases he : ((c k).getD emptyEntry).imdbDetailsFetched with
        | none =>
            exfalso
            have h3 : FieldVal.nonEmpty (FieldVal.flag (((c k).getD emptyEntry).imdbDetailsFetched)) = true := hne
            rw [he] at h3
            exact absurd h3 (by decide)
        | some b =>
            have hb : b = true := by
              have h3 : FieldVal.nonEmpty (FieldVal.flag (((c k).getD emptyEntry).imdbDetailsFetched)) = true := hne
              rw [he] at h3
              exact h3
            show FieldVal.flag (some true) =
              FieldVal.flag ((c k).getD emptyEntry).imdbDetailsFetched
            rw [he, hb]

/-- The first `rememberMovies` pass of the C1 counterexample: seeds
posterUrl "Poster" for key "1". -/
def c1CacheA : Cache :=
  rememberMovies emptyCache [⟨some "1", some "Poster", none, none, none, none⟩]

/-- The second pass carries a present-but-empty posterUrl for key "1". -/
def c1CacheB : Cache :=
  rememberMovies c1CacheA [⟨some "1", some "", none, none, none, none⟩]

/-- C1 counterexample: the claim fails as stated.  The posterUrl field is
set to the non-empty value "Poster"; a subsequent `rememberMovies` whose
input carries the empty string for posterUrl — an empty value for that
field — changes it to "", because the source merges light fields with
`??`, which only guards against null/undefined, not against empty
strings. -/
theorem merge_monotonicity_counterexample :
    (getFieldC c1CacheA "1" CacheField.posterUrl).nonEmpty = true ∧
    getFieldC c1CacheB "1" CacheField.posterUrl = FieldVal.str (some "") ∧
    getFieldC c1CacheB "1" CacheField.posterUrl ≠
      getFieldC c1CacheA "1" CacheField.posterUrl := by
  refine ⟨by decide, by decide, by decide⟩

/-- C1 (amended): once a MetadataRecord field holds a non-empty value, no
subsequent `rememberMovies` call whose input carries an absent
(null/undefined) value for that field at that key, and no `mergeDetails`
call whose extracted input is empty for that field, changes it — so the
field's final value after any such sequence equals the value it held.
(The amendment restricts the original claim's "empty or absent" to
"absent" for `rememberMovies` inputs: a present empty string does
overwrite, as the counterexample shows.) -/
theorem merge_monotonicity_amended (k : String) (f : CacheField) :
    ∀ (ops : List CacheOp) (c : Cache),
      (getFieldC c k f).nonEmpty = true →
      (∀ op ∈ ops, opSafeFor op k f = true) →
      getFieldC (ops.foldl applyOp c) k f = getFieldC c k f := by
  intro ops
  induction ops with
  | nil => intro c _ _; rfl
  | cons op rest ih =>
      intro c hne hops
      have hstep : getFieldC (applyOp c op) k f = getFieldC c k f := by
        cases op with
        | remember ms =>
            refine rememberMovies_preserves k f ms c ?_
            have h1 := hops _ (List.mem_cons_self _ _)
            have h2 : (ms.all fun m => movieSafeFor m k f) = true := h1
            exact fun m hm => List.all_eq_true.mp h2 m hm
        | merge mkey imdbIdArg nr cs nc =>
            exact mergeOp_preserves c k mkey f imdbIdArg nr cs nc hne
              (hops _ (List.mem_cons_self _ _))
      show getFieldC (rest.foldl applyOp (applyOp c op)) k f = _
      rw [ih (applyOp c op) (by rw [hstep]; exact hne)
        (fun x hx => hops x (List.mem_cons_of_mem _ hx)), hstep]

/-- Witness for the amended C1: posterUrl seeded to "Poster"; a remember
pass carrying an absent posterUrl (but a new title) and a merge carrying
empty synopsis/runtime/credits leave it unchanged. -/
theorem merge_monotonicity_amended_witness :
    (getFieldC c1CacheA "1" CacheField.posterUrl).nonEmpty = true ∧
    (∀ op ∈ ([CacheOp.remember [⟨some "1", none, some "Title", none, none, none⟩],
        CacheOp.merge "1" "0000001" "" "" emptyCredits] : List CacheOp),
      opSafeFor op "1" CacheField.posterUrl = true) ∧
    getFieldC (([CacheOp.remember [⟨some "1", none, some "Title", none, none, none⟩],
        CacheOp.merge "1" "0000001" "" "" emptyCredits] : List CacheOp).foldl
      applyOp c1CacheA) "1" CacheField.posterUrl =
      getFieldC c1CacheA "1" CacheField.posterUrl := by
  refine ⟨by decide, by decide, ?_⟩
  exact merge_monotonicity_amended "1" CacheField.posterUrl
    [CacheOp.remember [⟨some "1", none, some "Title", none, none, none⟩],
     CacheOp.merge "1" "0000001" "" "" emptyCredits] c1CacheA
    (by decide) (by decide)

theorem dedupInsert_mem (acc : List Person) (p q : Person) (h : q ∈ acc) :
    q ∈ dedupInsert acc p := by
  unfold dedupInsert
  by_cases h1 : personKey p = ""
  · rw [if_pos h1]
    exact h
  · rw [if_neg h1]
    by_cases h2 : (acc.any fun x => personKey x == personKey p) = true
    · rw [if_pos h2]
      exact h
    · rw [if_neg h2]
      exact List.mem_append_left _ h

theorem addPeople_mem (ps : List Person) :
    ∀ (acc : List Person) (q : Person), q ∈ acc → q ∈ addPeople acc ps := by
  induction ps with
  | nil => intro acc q h; exact h
  | cons p rest ih =>
      intro acc q h
      exact ih (dedupInsert acc p) q (dedupInsert_mem acc p q h)

theorem addPeople_covers (ps : List Person) :
    ∀ (acc : List Person) (p : Person), p ∈ ps →
      personKey p = "" ∨ ∃ q ∈ addPeople acc ps, personKey q = personKey p := by
  induction ps with
  | nil => intro acc p h; cases h
  | cons hd rest ih =>
      intro acc p hp
      cases hp with
      | head =>
          by_cases h1 : personKey hd = ""
          · left
            exact h1
          · right
            have hmem : ∃ q ∈ dedupInsert acc hd, personKey q = personKey hd := by
              unfold dedupInsert
              rw [if_neg h1]
              by_cases h2 : (acc.any fun x => personKey x == personKey hd) = true
              · rw [if_pos h2]
                obtain ⟨q, hq, hqk⟩ := List.any_eq_true.mp h2
                exact ⟨q, hq, eq_of_beq hqk⟩
              · rw [if_neg h2]
                exact ⟨hd, List.mem_append_right _ (List.mem_singleton.mpr rfl), rfl⟩
            obtain ⟨q, hq, hqk⟩ := hmem
            exact ⟨q, addPeople_mem rest (dedupInsert acc hd) q hq, hqk⟩
      | tail _ hmem => exact ih (dedupInsert acc hd) p hmem

theorem addPeople_noop (ps : List Person) :
    ∀ (acc : List Person),
      (∀ p ∈ ps, personKey p = "" ∨ ∃ q ∈ acc, personKey q = personKey p) →
      addPeople acc ps = acc := by
  induction ps with
  | nil => intro acc _; rfl
  | cons hd rest ih =>
      intro acc hcov
      have hfix : dedupInsert acc hd = acc := by
        unfold dedupInsert
        rcases hcov hd (List.mem_cons_self _ _) with h1 | ⟨q, hq, hqk⟩
        · rw [if_pos h1]
        · by_cases h1 : personKey hd = ""
          · rw [if_pos h1]
          · rw [if_neg h1]
            have h2 : (acc.any fun x => personKey x == personKey hd) = true :=
              List.any_eq_true.mpr ⟨q, hq, beq_of_eq hqk⟩
            rw [if_pos h2]
      show addPeople (dedupInsert acc hd) rest = acc
      rw [hfix]
      exact ih acc (fun p hp => hcov p (List.mem_cons_of_mem _ hp))

theorem addPeople_nodup (ps : List Person) :
    ∀ (acc : List Person),
      (acc.map personKey).Nodup → ((addPeople acc ps).map personKey).Nodup := by
  induction ps with
  | nil => intro acc h; exact h
  | cons hd rest ih =>
      intro acc h
      show ((addPeople (dedupInsert acc hd) rest).map personKey).Nodup
      apply ih
      unfold dedupInsert
      by_cases h1 : personKey hd = ""
      · rw [if_pos h1]
        exact h
      · rw [if_neg h1]
        by_cases h2 : (acc.any fun x => personKey x == personKey hd) = true
        · rw [if_pos h2]
          exact h
        · rw [if_neg h2]
          rw [List.map_append]
          refine List.Nodup.append h (by simp) ?_
          intro a ha hb
          have hahd : a = personKey hd := by
            simpa using hb
          obtain ⟨x, hx, hxk⟩ := List.mem_map.mp ha
          exact h2 (List.any_eq_true.mpr ⟨x, hx, beq_of_eq (by rw [hxk, hahd])⟩)

/-- C4: passing the same source twice to the credit normalizer yields
exactly the same Person list as passing it once — the second pass adds
nothing because each person's dedup key (id if present, else name) is
already present — with first-occurrence order preserved, and the result
never contains two persons with the same key. -/
theorem mergePeople_idempotent (x : JSVal) :
    mergePeople [x, x] = mergePeople [x] ∧
    ((mergePeople [x]).map personKey).Nodup := by
  constructor
  · show addPeople (addPeople [] (toPeopleArray x)) (toPeopleArray x) =
      addPeople [] (toPeopleArray x)
    exact addPeople_noop _ _ (fun p hp => addPeople_covers _ [] p hp)
  · exact addPeople_nodup (toPeopleArray x) [] (by simp)

/-- C8: for every string source, the normalizer splits on commas,
ampersands and the word "and" (case-insensitively, at word boundaries),
trims each piece, drops empty pieces, and maps each remaining piece to a
Person with id and name equal to the piece and image empty; in particular
"Jane Doe, John Smith" yields exactly the two Persons
(id "Jane Doe", name "Jane Doe") and (id "John Smith", name "John Smith")
in that order. -/
theorem toPeopleArray_delimited_string (s : String) :
    toPeopleArray (.jstr s) =
      (((splitDelimiters s).map jsTrim).filter (fun piece => piece != "")).map
        (fun name => (⟨name, name, ""⟩ : Person)) ∧
    toPeopleArray (.jstr "Jane Doe, John Smith") =
      [⟨"Jane Doe", "Jane Doe", ""⟩, ⟨"John Smith", "John Smith", ""⟩] := by
  constructor
  · by_cases h : s = ""
    · subst h
      decide
    · have ht : truthy (.jstr s) = true := decide_eq_true h
      show (if truthy (.jstr s) = false then [] else
        (((splitDelimiters s).map jsTrim).filter (fun piece => piece != "")).map
          (fun name => (⟨name, name, ""⟩ : Person))) = _
      rw [ht]
      rw [if_neg (by intro hc; cases hc)]
  · decide

end MovieDashboard
